import Mathlib

/-!
Verification of the solend token-lending repository against its
natural-language specification.

The definitions below are a shallow embedding of the Rust sources:

* `src/token-lending/sdk/src/state/rate_limiter.rs` — sliding window rate
  limiter (`RateLimiter`, `RateLimiter::new`, `RateLimiter::update`,
  `Pack for RateLimiter`);
* `src/token-lending/program/src/smart_pack.rs` and
  `src/token-lending/sdk/src/smart_pack.rs` — versioned account
  (de)serialization;
* `src/token-lending/program/src/state/lending_market.rs`,
  `lending_market_v0.rs`, `lending_market_v1.rs` — the lending market
  account schemas and their conversions;
* `src/token-lending/program/src/oracles.rs` — `get_pyth_price`.

Machine integers are embedded as `Nat` with explicit bounds where overflow
matters; a Rust panic (failed `assert!`, division by zero, u64 subtraction
underflow, `expect` on a too-wide decimal) is modelled as a distinguished
outcome (`Option` / `UpdateResult.panic`), never as a wrapping value.
-/

/-- Errors of the lending program that the embedded code can produce
(`LendingError` in the source; only the variants reachable from the
embedded functions are modelled). -/
inductive LendingErr where
  | FailedToDeserialize
  | FailedToSerialize
  | OutflowRateLimitExceeded
  | MathOverflow
  | InvalidOracleConfig
  | NullOracleConfig
deriving DecidableEq, Repr

/-- Modelled from the spec: the fixed-point `Decimal` type lives in the
repository's `math` module, which is not under `src/`.  Spec §4.1 / §3:
an unsigned 1e18-scaled fixed-point number stored in a 192-bit integer
with checked arithmetic.  A `Decimal` is embedded as its 10^18-scaled
natural value; every operation checks the 2^192 bound exactly where the
checked U192 operation in the source does.  `WAD` is the 10^18 scale. -/
def WAD : Nat := 10 ^ 18

/-- Modelled from the spec: upper bound of the 192-bit integer backing
`Decimal` (spec §3: width ≥ 192 bits, checked operations). -/
def U192_MOD : Nat := 2 ^ 192

/-- Modelled from the spec: `Decimal::from(u64)` scales by `WAD`. -/
def Decimal.fromU64 (n : Nat) : Nat := n * WAD

/-- Modelled from the spec: `Decimal::one()`. -/
def Decimal.one : Nat := WAD

/-- Modelled from the spec: `Decimal::zero()`. -/
def Decimal.zero : Nat := 0

/-- Modelled from the spec: `Decimal::try_add` — checked 192-bit addition,
`MathOverflow` on overflow. -/
def Decimal.tryAdd (a b : Nat) : Except LendingErr Nat :=
  if a + b < U192_MOD then .ok (a + b) else .error .MathOverflow

/-- Modelled from the spec: `Decimal::try_sub` — checked subtraction,
`MathOverflow` on underflow (spec §3: subtraction below zero is an error,
not wraparound). -/
def Decimal.trySub (a b : Nat) : Except LendingErr Nat :=
  if b ≤ a then .ok (a - b) else .error .MathOverflow

/-- Modelled from the spec: `Decimal::try_mul(Decimal)` — checked wide
multiply of the scaled values, then scale back down by `WAD`. -/
def Decimal.tryMulDec (a b : Nat) : Except LendingErr Nat :=
  if a * b < U192_MOD then .ok (a * b / WAD) else .error .MathOverflow

/-- Modelled from the spec: `Decimal::try_mul(u64)` — checked multiply of
the scaled value by an unscaled integer. -/
def Decimal.tryMulU64 (a n : Nat) : Except LendingErr Nat :=
  if a * n < U192_MOD then .ok (a * n) else .error .MathOverflow

/-- Modelled from the spec: `Decimal::try_div(Decimal)` — scale the
numerator up by `WAD` (checked), then checked division (`MathOverflow`
on a zero divisor, matching `checked_div`). -/
def Decimal.tryDivDec (a b : Nat) : Except LendingErr Nat :=
  if U192_MOD ≤ a * WAD then .error .MathOverflow
  else if b = 0 then .error .MathOverflow
  else .ok (a * WAD / b)

/-- Modelled from the spec: `Decimal::try_div(u64)` divides by the
`Decimal` obtained from the integer. -/
def Decimal.tryDivU64 (a n : Nat) : Except LendingErr Nat :=
  Decimal.tryDivDec a (Decimal.fromU64 n)

/-- One half-open accumulation window of the rate limiter
(`Window` in `rate_limiter.rs`): its start slot and the `Decimal`
quantity accepted so far inside it (10^18-scaled). -/
structure Window where
  slot_start : Nat
  qty : Nat
deriving DecidableEq, Repr

/-- Sliding-window rate limiter (`RateLimiter` in `rate_limiter.rs`):
window duration in slots, max outflow per window (`Decimal`), and the
previous/current window state. -/
structure RateLimiter where
  window_duration : Nat
  max_outflow : Nat
  prev_window : Window
  cur_window : Window
deriving DecidableEq, Repr

/-- `RateLimiter::new(window_duration, max_outflow, cur_slot)`.
`slot_start = cur_slot / window_duration * window_duration`; the u64
division panics when `window_duration = 0` and `slot_start - 1`
underflows when `slot_start = 0`, so those cases yield `none`. -/
def RateLimiter.new (window_duration max_outflow cur_slot : Nat) :
    Option RateLimiter :=
  if window_duration = 0 then none
  else
    if cur_slot / window_duration * window_duration = 0 then none
    else
      some { window_duration := window_duration
             max_outflow := max_outflow
             prev_window :=
               { slot_start := cur_slot / window_duration * window_duration - 1
                 qty := Decimal.zero }
             cur_window :=
               { slot_start := cur_slot / window_duration * window_duration
                 qty := Decimal.zero } }

/-- The window-advance bookkeeping at the head of `RateLimiter::update`:
the `match slot_start.cmp(&(self.cur_window.slot_start + self.window_duration))`
block that rotates `prev_window`/`cur_window` before any quantity is
considered.  (The `Greater` branch's `slot_start - 1` underflow is
guarded in `RateLimiter.update`, which models it as a panic.) -/
def RateLimiter.slide (r : RateLimiter) (cur_slot : Nat) : RateLimiter :=
  if cur_slot / r.window_duration * r.window_duration <
      r.cur_window.slot_start + r.window_duration then r
  else if cur_slot / r.window_duration * r.window_duration =
      r.cur_window.slot_start + r.window_duration then
    { r with prev_window := r.cur_window
             cur_window :=
               { slot_start := cur_slot / r.window_duration * r.window_duration
                 qty := Decimal.zero } }
  else
    { r with
        prev_window := { slot_start := r.cur_window.slot_start - 1
                         qty := Decimal.zero }
        cur_window :=
          { slot_start := cur_slot / r.window_duration * r.window_duration
            qty := Decimal.zero } }

/-- Outcome of `RateLimiter::update`: since the Rust method mutates
`&mut self` before it can fail, both the success and the error outcome
carry the post-call state; `panic` models a failed `assert!`, a division
by zero or a u64 subtraction underflow. -/
inductive UpdateResult where
  | ok (r : RateLimiter)
  | err (e : LendingErr) (r : RateLimiter)
  | panic
deriving DecidableEq, Repr

/-- Body of `RateLimiter::update` after the window-advance block, acting
on the already-slid state `r`: computes `prev_weight`, `cur_outflow`,
checks the budget and on success adds `qty` into the current window.
Every `?`-propagated error leaves the slid state in place. -/
def RateLimiter.updateBody (r : RateLimiter) (cur_slot qty : Nat) :
    UpdateResult :=
  match Decimal.tryDivU64
      (Decimal.fromU64 (cur_slot - r.cur_window.slot_start + 1))
      r.window_duration with
  | .error e => .err e r
  | .ok ratio =>
    match Decimal.trySub Decimal.one ratio with
    | .error e => .err e r
    | .ok prev_weight =>
      match Decimal.tryMulDec prev_weight r.prev_window.qty with
      | .error e => .err e r
      | .ok weighted_prev =>
        match Decimal.tryAdd weighted_prev r.cur_window.qty with
        | .error e => .err e r
        | .ok cur_outflow =>
          match Decimal.tryAdd cur_outflow qty with
          | .error e => .err e r
          | .ok total =>
            if r.max_outflow < total then
              .err .OutflowRateLimitExceeded r
            else
              match Decimal.tryAdd r.cur_window.qty qty with
              | .error e => .err e r
              | .ok new_qty =>
                .ok { r with
                        cur_window := { slot_start := r.cur_window.slot_start
                                        qty := new_qty } }

/-- `RateLimiter::update(cur_slot, qty)` (`qty` is a 10^18-scaled
`Decimal`).  Panics: the `assert!(cur_slot >= self.cur_window.slot_start)`,
the division `cur_slot / self.window_duration` with a zero duration, and
the `Greater`-branch `self.cur_window.slot_start - 1` underflow. -/
def RateLimiter.update (r : RateLimiter) (cur_slot qty : Nat) : UpdateResult :=
  if cur_slot < r.cur_window.slot_start then .panic
  else if r.window_duration = 0 then .panic
  else if r.cur_window.slot_start + r.window_duration <
      cur_slot / r.window_duration * r.window_duration ∧
      r.cur_window.slot_start = 0 then .panic
  else RateLimiter.updateBody (r.slide cur_slot) cur_slot qty

/-- Little-endian byte encoding of a natural number into `k` bytes
(`to_le_bytes` in the source; the value is reduced modulo `256^k`, which
never loses information for in-range machine integers). -/
def natToLe : Nat → Nat → List Nat
  | 0, _ => []
  | k + 1, n => n % 256 :: natToLe k (n / 256)

/-- Little-endian byte decoding (`from_le_bytes` in the source). -/
def leToNat : List Nat → Nat
  | [] => 0
  | b :: rest => b + 256 * leToNat rest

/-- Modelled from the spec: `PROGRAM_VERSION` lives in the repository's
`state` module, which is not under `src/`.  The current schema version is
2 (the in-`src/` tests `unpack_from_v1` / `from_lending_market_v1` pin
the current `LendingMarket.version` to 2). -/
def PROGRAM_VERSION : Nat := 2

/-- Modelled from the spec: `UNINITIALIZED_VERSION` lives in the
repository's `state` module, which is not under `src/`.  Version byte 0
marks an uninitialized account (spec: leading version byte dispatch,
empty/zeroed accounts rejected). -/
def UNINITIALIZED_VERSION : Nat := 0

/-- Tag identifying the account kind inside version-2 (borsh) encodings
(`AccountTag` in `program/src/smart_pack.rs`). -/
inductive AccountTag where
  | UnInitialized
  | LendingMarket
  | Reserve
  | Obligation
deriving DecidableEq, Repr

/-- Borsh encoding of `AccountTag`: a single byte holding the variant
index, in declaration order. -/
def AccountTag.toByte : AccountTag → Nat
  | .UnInitialized => 0
  | .LendingMarket => 1
  | .Reserve => 2
  | .Obligation => 3

/-- Borsh decoding of `AccountTag`: variant indices 0–3 are valid, any
other byte is a deserialization error. -/
def AccountTag.ofByte : Nat → Option AccountTag
  | 0 => some .UnInitialized
  | 1 => some .LendingMarket
  | 2 => some .Reserve
  | 3 => some .Obligation
  | _ => none

/-- Version-1 lending market account
(`LendingMarketV1` in `program/src/state/lending_market_v1.rs`).
Pubkeys and the quote currency are 32-byte arrays, embedded as byte
lists (length and byte range carried by `LendingMarketV1.WF`). -/
structure LendingMarketV1 where
  version : Nat
  bump_seed : Nat
  owner : List Nat
  quote_currency : List Nat
  token_program_id : List Nat
  oracle_program_id : List Nat
  switchboard_oracle_program_id : List Nat
deriving DecidableEq, Repr

/-- Well-formedness of a `LendingMarketV1` value as it exists in Rust:
each u8 field is a byte and each 32-byte array has length 32 with byte
entries. -/
def LendingMarketV1.WF (v : LendingMarketV1) : Prop :=
  v.version < 256 ∧ v.bump_seed < 256 ∧
  v.owner.length = 32 ∧ (∀ b ∈ v.owner, b < 256) ∧
  v.quote_currency.length = 32 ∧ (∀ b ∈ v.quote_currency, b < 256) ∧
  v.token_program_id.length = 32 ∧ (∀ b ∈ v.token_program_id, b < 256) ∧
  v.oracle_program_id.length = 32 ∧ (∀ b ∈ v.oracle_program_id, b < 256) ∧
  v.switchboard_oracle_program_id.length = 32 ∧
  (∀ b ∈ v.switchboard_oracle_program_id, b < 256)

instance (v : LendingMarketV1) : Decidable v.WF := by
  unfold LendingMarketV1.WF; infer_instance

/-- `Pack::pack_into_slice` for `LendingMarketV1`: the fixed 290-byte
layout `version ++ bump_seed ++ owner ++ quote_currency ++
token_program_id ++ oracle_program_id ++ switchboard_oracle_program_id ++
128 padding bytes`. -/
def LendingMarketV1.pack (v : LendingMarketV1) : List Nat :=
  [v.version] ++ ([v.bump_seed] ++ (v.owner ++ (v.quote_currency ++
    (v.token_program_id ++ (v.oracle_program_id ++
      (v.switchboard_oracle_program_id ++ List.replicate 128 0))))))

/-- `Pack::unpack` for `LendingMarketV1`: length must be exactly 290
(`Pack::unpack` checks `input.len() != LEN`), `unpack_from_slice` rejects
`version > PROGRAM_VERSION`, and `Pack::unpack` then rejects values that
are not `is_initialized` (version 0). -/
def LendingMarketV1.unpack (src : List Nat) : Except Unit LendingMarketV1 :=
  match src with
  | version :: bump_seed :: rest =>
    if rest.length = 288 then
      if version ≤ PROGRAM_VERSION then
        if version ≠ UNINITIALIZED_VERSION then
          .ok { version := version
                bump_seed := bump_seed
                owner := rest.take 32
                quote_currency := (rest.drop 32).take 32
                token_program_id := ((rest.drop 32).drop 32).take 32
                oracle_program_id :=
                  (((rest.drop 32).drop 32).drop 32).take 32
                switchboard_oracle_program_id :=
                  ((((rest.drop 32).drop 32).drop 32).drop 32).take 32 }
        else .error ()
      else .error ()
    else .error ()
  | _ => .error ()

/-- Current-version lending market account
(`LendingMarket` in `program/src/state/lending_market.rs`). -/
structure LendingMarket where
  version : Nat
  tag : AccountTag
  bump_seed : Nat
  owner : List Nat
  quote_currency : List Nat
  token_program_id : List Nat
  oracle_program_id : List Nat
  switchboard_oracle_program_id : List Nat
deriving DecidableEq, Repr

/-- Well-formedness of a `LendingMarket` value as it exists in Rust. -/
def LendingMarket.WF (m : LendingMarket) : Prop :=
  m.version < 256 ∧ m.bump_seed < 256 ∧
  m.owner.length = 32 ∧ (∀ b ∈ m.owner, b < 256) ∧
  m.quote_currency.length = 32 ∧ (∀ b ∈ m.quote_currency, b < 256) ∧
  m.token_program_id.length = 32 ∧ (∀ b ∈ m.token_program_id, b < 256) ∧
  m.oracle_program_id.length = 32 ∧ (∀ b ∈ m.oracle_program_id, b < 256) ∧
  m.switchboard_oracle_program_id.length = 32 ∧
  (∀ b ∈ m.switchboard_oracle_program_id, b < 256)

instance (m : LendingMarket) : Decidable m.WF := by
  unfold LendingMarket.WF; infer_instance

/-- `From<LendingMarketV1> for LendingMarket`
(`lending_market.rs`, lines 80–93): version forced to 2, tag added as
`LendingMarket`, all other fields copied. -/
def LendingMarket.fromV1 (v : LendingMarketV1) : LendingMarket :=
  { version := 2
    tag := .LendingMarket
    bump_seed := v.bump_seed
    owner := v.owner
    quote_currency := v.quote_currency
    token_program_id := v.token_program_id
    oracle_program_id := v.oracle_program_id
    switchboard_oracle_program_id := v.switchboard_oracle_program_id }

/-- `From<LendingMarket> for LendingMarketV1`
(`lending_market_v1.rs`, lines 118–130): version forced to 1, all other
fields copied. -/
def LendingMarketV1.fromCurrent (m : LendingMarket) : LendingMarketV1 :=
  { version := 1
    bump_seed := m.bump_seed
    owner := m.owner
    quote_currency := m.quote_currency
    token_program_id := m.token_program_id
    oracle_program_id := m.oracle_program_id
    switchboard_oracle_program_id := m.switchboard_oracle_program_id }

/-- Version-0 lending market account
(`LendingMarketV0` in `program/src/state/lending_market_v0.rs`); same
field set as version 1. -/
structure LendingMarketV0 where
  version : Nat
  bump_seed : Nat
  owner : List Nat
  quote_currency : List Nat
  token_program_id : List Nat
  oracle_program_id : List Nat
  switchboard_oracle_program_id : List Nat
deriving DecidableEq, Repr

/-- `From<LendingMarket> for LendingMarketV0`
(`lending_market_v0.rs`, lines 118–131).  Note the source sets
`oracle_program_id: lending_market.token_program_id` (the line copying
`oracle_program_id` is commented out). -/
def LendingMarketV0.fromCurrent (m : LendingMarket) : LendingMarketV0 :=
  { version := m.version
    bump_seed := m.bump_seed
    owner := m.owner
    quote_currency := m.quote_currency
    token_program_id := m.token_program_id
    oracle_program_id := m.token_program_id
    switchboard_oracle_program_id := m.switchboard_oracle_program_id }

/-- Borsh serialization of `LendingMarket` (derived `BorshSerialize`):
fields in declaration order, u8 fields as single bytes, the tag as its
variant index byte, 32-byte arrays verbatim. -/
def LendingMarket.borshSer (m : LendingMarket) : List Nat :=
  [m.version] ++ ([m.tag.toByte] ++ ([m.bump_seed] ++ (m.owner ++
    (m.quote_currency ++ (m.token_program_id ++ (m.oracle_program_id ++
      m.switchboard_oracle_program_id))))))

/-- Borsh deserialization of `LendingMarket` (`try_from_slice`): reads
the fields in order and fails unless the buffer is consumed exactly
(163 bytes) and the tag byte is a valid variant index. -/
def LendingMarket.borshDeser (src : List Nat) : Except Unit LendingMarket :=
  match src with
  | version :: tag_byte :: bump_seed :: rest =>
    if rest.length = 160 then
      match AccountTag.ofByte tag_byte with
      | none => .error ()
      | some tag =>
        .ok { version := version
              tag := tag
              bump_seed := bump_seed
              owner := rest.take 32
              quote_currency := (rest.drop 32).take 32
              token_program_id := ((rest.drop 32).drop 32).take 32
              oracle_program_id :=
                (((rest.drop 32).drop 32).drop 32).take 32
              switchboard_oracle_program_id :=
                ((((rest.drop 32).drop 32).drop 32).drop 32).take 32 }
    else .error ()
  | _ => .error ()

/-- `ValidateTag for LendingMarket` (`lending_market.rs`, lines 69–76):
any tag other than `AccountTag::LendingMarket` is a
`FailedToDeserialize`. -/
def LendingMarket.validateTag (m : LendingMarket) : Except LendingErr Unit :=
  match m.tag with
  | .LendingMarket => .ok ()
  | _ => .error .FailedToDeserialize

/-- The program's `SmartPack::smart_unpack` instantiated at
`(LendingMarketV1, LendingMarket)` (`program/src/smart_pack.rs`, lines
33–58): dispatch on the leading version byte (an empty buffer counts as
uninitialized), version 1 goes through the fixed-layout `Pack` decoder
followed by the `From` migration, version 2 through borsh plus the tag
check, everything else is `FailedToDeserialize`. -/
def LendingMarket.smartUnpack (src : List Nat) :
    Except LendingErr LendingMarket :=
  match src with
  | [] => .error .FailedToDeserialize
  | v :: _ =>
    if v = UNINITIALIZED_VERSION then .error .FailedToDeserialize
    else if v = 1 then
      match LendingMarketV1.unpack src with
      | .error _ => .error .FailedToDeserialize
      | .ok object => .ok (LendingMarket.fromV1 object)
    else if v = 2 then
      match LendingMarket.borshDeser src with
      | .ok object =>
        match object.validateTag with
        | .ok _ => .ok object
        | .error e => .error e
      | .error _ => .error .FailedToDeserialize
    else .error .FailedToDeserialize

/-- The program's `SmartPack::smart_pack` at version 2
(`program/src/smart_pack.rs`, lines 61–91): borsh-serialize into a
vector, re-allocate the account data to exactly the serialized length
and copy; the account data afterwards is exactly the serialized
vector. -/
def LendingMarket.smartPackV2 (m : LendingMarket) : List Nat :=
  m.borshSer

/-- The sdk's `SmartPack::smart_unpack` (`sdk/src/smart_pack.rs`, lines
24–40) instantiated at the version-1 lending market layout: dispatch on
the leading version byte; only version 1 is implemented. -/
def sdkSmartUnpack (src : List Nat) : Except LendingErr LendingMarketV1 :=
  match src with
  | [] => .error .FailedToDeserialize
  | v :: _ =>
    if v = UNINITIALIZED_VERSION then .error .FailedToDeserialize
    else if v = 1 then
      match LendingMarketV1.unpack src with
      | .error _ => .error .FailedToDeserialize
      | .ok object => .ok object
    else .error .FailedToDeserialize

/-- Modelled from the spec: `pack_decimal` lives in the repository's
`state` module, which is not under `src/`.  The `Pack for RateLimiter`
layout in `rate_limiter.rs` reserves 16 bytes per decimal, so a decimal
is stored as the little-endian u128 of its 10^18-scaled value; a scaled
value of 2^128 or more cannot be represented and packing it panics
(`expect`), modelled as `none`. -/
def packDecimal (d : Nat) : Option (List Nat) :=
  if d < 2 ^ 128 then some (natToLe 16 d) else none

/-- Modelled from the spec: `unpack_decimal` (repository `state` module,
not under `src/`) reads back the little-endian 16-byte scaled value. -/
def unpackDecimal (src : List Nat) : Nat := leToNat src

/-- The 72 bytes written by `Pack::pack_into_slice` for `RateLimiter`
(`rate_limiter.rs`, lines 171–187), in field order `max_outflow`,
`window_duration`, `prev_window.slot_start`, `prev_window.qty`,
`cur_window.slot_start`, `cur_window.qty` with sizes 16/8/8/16/8/16. -/
def RateLimiter.packBytes (r : RateLimiter) : List Nat :=
  natToLe 16 r.max_outflow ++ (natToLe 8 r.window_duration ++
    (natToLe 8 r.prev_window.slot_start ++ (natToLe 16 r.prev_window.qty ++
      (natToLe 8 r.cur_window.slot_start ++ natToLe 16 r.cur_window.qty))))

/-- `Pack::pack_into_slice` for `RateLimiter`: packing panics (`none`)
when a decimal field's scaled value does not fit in its 16-byte slot
(`pack_decimal`'s `expect`). -/
def RateLimiter.packIntoSlice (r : RateLimiter) : Option (List Nat) :=
  if r.max_outflow < 2 ^ 128 ∧ r.prev_window.qty < 2 ^ 128 ∧
      r.cur_window.qty < 2 ^ 128 then
    some r.packBytes
  else none

/-- `Pack::unpack_from_slice` for `RateLimiter` (`rate_limiter.rs`,
lines 189–212): reads the six fixed segments back; `array_ref!` panics
(`none`) if fewer than 72 bytes are given. -/
def RateLimiter.unpackFromSlice (src : List Nat) : Option RateLimiter :=
  if src.length < 72 then none
  else
    some { max_outflow := unpackDecimal (src.take 16)
           window_duration := leToNat ((src.drop 16).take 8)
           prev_window :=
             { slot_start := leToNat (((src.drop 16).drop 8).take 8)
               qty := unpackDecimal ((((src.drop 16).drop 8).drop 8).take 16) }
           cur_window :=
             { slot_start :=
                 leToNat (((((src.drop 16).drop 8).drop 8).drop 16).take 8)
               qty := unpackDecimal
                 ((((((src.drop 16).drop 8).drop 8).drop 16).drop 8).take
                   16) } }

/-- A pyth price observation as the oracle code consumes it: the i64
aggregate price, the u64 confidence and the i32 exponent. -/
structure PythPrice where
  price : Int
  conf : Nat
  expo : Int
deriving DecidableEq, Repr

/-- Errors of `get_pyth_price`: either a `LendingError` produced by the
function itself, or an error propagated from the pyth SDK loader. -/
inductive OracleErr where
  | lending (e : LendingErr)
  | pythLoad
deriving DecidableEq, Repr

/-- `get_pyth_price` (`program/src/oracles.rs`, lines 13–79).

Modelled from the spec: `load_price_feed_from_account_info` and
`get_latest_available_price_within_duration` belong to the external
`pyth_sdk_solana` crate, so the oracle account is abstracted into
`keyIsNull` (the `NULL_PUBKEY` guard) and `loaded`, the outcome of
loading the feed and asking for a price no older than the maximum age
relative to the clock: `.error` = the feed failed to parse, `.ok none` =
no sufficiently recent price exists (stale), `.ok (some p)` = the freshest
acceptable price (spec §6: the oracle interface fails when the price is
stale for a configurable max age).  Everything after that point — the
negative-price conversion, the saturating confidence-ratio filter with
`MAX_PYTH_CONFIDENCE_RATIO = 10`, and the exponent scaling — follows the
source. -/
def get_pyth_price (keyIsNull : Bool)
    (loaded : Except Unit (Option PythPrice)) : Except OracleErr Nat :=
  if keyIsNull then .error (.lending .NullOracleConfig)
  else
    match loaded with
    | .error _ => .error .pythLoad
    | .ok none => .error (.lending .InvalidOracleConfig)
    | .ok (some p) =>
      if p.price < 0 then .error (.lending .InvalidOracleConfig)
      else
        let price := p.price.toNat
        if price < min (p.conf * 10) (2 ^ 64 - 1) then
          .error (.lending .InvalidOracleConfig)
        else
          if 0 ≤ p.expo then
            let e := p.expo.toNat
            if 2 ^ 64 ≤ 10 ^ e then .error (.lending .MathOverflow)
            else
              match Decimal.tryMulU64 (Decimal.fromU64 price) (10 ^ e) with
              | .ok d => .ok d
              | .error er => .error (.lending er)
          else
            if p.expo = -(2 ^ 31 : Int) then .error (.lending .MathOverflow)
            else
              let e := (-p.expo).toNat
              if 2 ^ 64 ≤ 10 ^ e then .error (.lending .MathOverflow)
              else
                match Decimal.tryDivU64 (Decimal.fromU64 price) (10 ^ e) with
                | .ok d => .ok d
                | .error er => .error (.lending er)

/-- Run a sequence of `RateLimiter::update` calls, returning the final
state and the sub-list of calls that were accepted (succeeded); errors
keep the post-error state and continue, a panic stops the run. -/
def runUpdates (r : RateLimiter) :
    List (Nat × Nat) → RateLimiter × List (Nat × Nat)
  | [] => (r, [])
  | (s, q) :: rest =>
    match r.update s q with
    | .ok r' =>
      let out := runUpdates r' rest
      (out.1, (s, q) :: out.2)
    | .err _ r' => runUpdates r' rest
    | .panic => (r, [])

/-- Total quantity (10^18-scaled) of the accepted calls whose slot lies
in the half-open interval `[lo, hi)`. -/
def sumLt (acc : List (Nat × Nat)) (lo hi : Nat) : Nat :=
  ((acc.filter fun p => decide (lo ≤ p.1 ∧ p.1 < hi)).map Prod.snd).sum

/-- Slot of the last call of a sequence (`d` if the sequence is empty). -/
def lastSlot : List (Nat × Nat) → Nat → Nat
  | [], d => d
  | p :: rest, _ => lastSlot rest p.1

/-- The call slots are non-decreasing and start no earlier than `d`. -/
def slotsOK : Nat → List (Nat × Nat) → Prop
  | _, [] => True
  | d, p :: rest => d ≤ p.1 ∧ slotsOK p.1 rest

/-- Invariant of a rate limiter reachable from `RateLimiter::new` through
a slot-ordered sequence of updates whose accepted calls are `acc`; `s`
is the slot of the last processed call (the creation slot initially). -/
structure RLInv (wd mo : Nat) (r : RateLimiter) (acc : List (Nat × Nat))
    (s : Nat) : Prop where
  hwd0 : 1 ≤ wd
  hwd : r.window_duration = wd
  hmo : r.max_outflow = mo
  halign : wd ∣ r.cur_window.slot_start
  hpos : 1 ≤ r.cur_window.slot_start
  hle : r.cur_window.slot_start ≤ s
  hqty : r.cur_window.qty ≤ mo
  hsum : sumLt acc r.cur_window.slot_start (r.cur_window.slot_start + wd) =
    r.cur_window.qty
  hwin : ∀ k, sumLt acc (k * wd) ((k + 1) * wd) ≤ mo
  hup : ∀ p ∈ acc, p.1 < r.cur_window.slot_start + wd

instance exceptDecEq {ε α : Type} [DecidableEq ε] [DecidableEq α] :
    DecidableEq (Except ε α)
  | .error a, .error b =>
    if h : a = b then .isTrue (by rw [h])
    else .isFalse (by intro hc; cases hc; exact h rfl)
  | .error _, .ok _ => .isFalse (by intro hc; cases hc)
  | .ok _, .error _ => .isFalse (by intro hc; cases hc)
  | .ok a, .ok b =>
    if h : a = b then .isTrue (by rw [h])
    else .isFalse (by intro hc; cases hc; exact h rfl)

theorem Decimal.tryAdd_ok {a b c : Nat} (h : Decimal.tryAdd a b = .ok c) :
    c = a + b := by
  unfold Decimal.tryAdd at h
  split at h
  · cases h; rfl
  · cases h

theorem Decimal.trySub_ok {a b c : Nat} (h : Decimal.trySub a b = .ok c) :
    c = a - b ∧ b ≤ a := by
  unfold Decimal.trySub at h
  split at h
  · cases h; exact ⟨rfl, by assumption⟩
  · cases h

theorem Decimal.tryMulDec_ok {a b c : Nat}
    (h : Decimal.tryMulDec a b = .ok c) : c = a * b / WAD := by
  unfold Decimal.tryMulDec at h
  split at h
  · cases h; rfl
  · cases h

theorem sumLt_nil (lo hi : Nat) : sumLt [] lo hi = 0 := rfl

theorem sumLt_cons (p : Nat × Nat) (acc : List (Nat × Nat)) (lo hi : Nat) :
    sumLt (p :: acc) lo hi =
      (if lo ≤ p.1 ∧ p.1 < hi then p.2 else 0) + sumLt acc lo hi := by
  by_cases h : lo ≤ p.1 ∧ p.1 < hi <;>
    simp [sumLt, List.filter_cons, h]

theorem sumLt_append (a b : List (Nat × Nat)) (lo hi : Nat) :
    sumLt (a ++ b) lo hi = sumLt a lo hi + sumLt b lo hi := by
  simp [sumLt, List.filter_append]

theorem sumLt_single (s q lo hi : Nat) :
    sumLt [(s, q)] lo hi = if lo ≤ s ∧ s < hi then q else 0 := by
  rw [sumLt_cons, sumLt_nil]
  simp

theorem sumLt_le_of_imp (acc : List (Nat × Nat)) (lo hi lo' hi' : Nat)
    (h : ∀ p ∈ acc, lo ≤ p.1 → p.1 < hi → lo' ≤ p.1 ∧ p.1 < hi') :
    sumLt acc lo hi ≤ sumLt acc lo' hi' := by
  induction acc with
  | nil => simp [sumLt_nil]
  | cons p rest ih =>
    rw [sumLt_cons, sumLt_cons]
    have hrest := ih fun x hx => h x (List.mem_cons_of_mem _ hx)
    by_cases hp : lo ≤ p.1 ∧ p.1 < hi
    · have := h p (List.mem_cons_self _ _) hp.1 hp.2
      simp only [if_pos hp, if_pos this]
      omega
    · simp only [if_neg hp]
      have : (if lo' ≤ p.1 ∧ p.1 < hi' then p.2 else 0) + sumLt rest lo' hi' ≥
          sumLt rest lo' hi' := by omega
      omega

theorem sumLt_split (acc : List (Nat × Nat)) (lo mid hi : Nat) :
    sumLt acc lo hi ≤ sumLt acc lo mid + sumLt acc mid hi := by
  induction acc with
  | nil => simp [sumLt_nil]
  | cons p rest ih =>
    rw [sumLt_cons, sumLt_cons, sumLt_cons]
    by_cases hp : lo ≤ p.1 ∧ p.1 < hi
    · by_cases hm : p.1 < mid
      · have h1 : lo ≤ p.1 ∧ p.1 < mid := ⟨hp.1, hm⟩
        simp only [if_pos hp, if_pos h1]
        omega
      · have h2 : mid ≤ p.1 ∧ p.1 < hi := ⟨by omega, hp.2⟩
        simp only [if_pos hp, if_pos h2]
        omega
    · simp only [if_neg hp]
      have c1 : (if lo ≤ p.1 ∧ p.1 < mid then p.2 else 0) ≥ 0 := by omega
      have c2 : (if mid ≤ p.1 ∧ p.1 < hi then p.2 else 0) ≥ 0 := by omega
      omega

theorem sumLt_eq_zero (acc : List (Nat × Nat)) (lo hi : Nat)
    (h : ∀ p ∈ acc, p.1 < lo) : sumLt acc lo hi = 0 := by
  induction acc with
  | nil => rfl
  | cons p rest ih =>
    rw [sumLt_cons]
    have hp := h p (List.mem_cons_self _ _)
    have hrest := ih fun x hx => h x (List.mem_cons_of_mem _ hx)
    have : ¬(lo ≤ p.1 ∧ p.1 < hi) := by omega
    simp [this, hrest]

theorem natToLe_length (k n : Nat) : (natToLe k n).length = k := by
  induction k generalizing n with
  | zero => rfl
  | succ k ih => simp [natToLe, ih]

theorem leToNat_natToLe (k n : Nat) :
    leToNat (natToLe k n) = n % 256 ^ k := by
  induction k generalizing n with
  | zero => simp [natToLe, leToNat, Nat.mod_one]
  | succ k ih =>
    rw [natToLe, leToNat, ih, pow_succ, mul_comm (256 ^ k) 256, Nat.mod_mul]

theorem leToNat_natToLe_of_lt {k n : Nat} (h : n < 256 ^ k) :
    leToNat (natToLe k n) = n := by
  rw [leToNat_natToLe, Nat.mod_eq_of_lt h]

theorem updateBody_err_state {r : RateLimiter} {s q : Nat} {e : LendingErr}
    {r' : RateLimiter} (h : RateLimiter.updateBody r s q = .err e r') :
    r' = r := by
  unfold RateLimiter.updateBody at h
  repeat' split at h
  all_goals first
    | (cases h; rfl)
    | cases h

theorem updateBody_ne_panic (r : RateLimiter) (s q : Nat) :
    RateLimiter.updateBody r s q ≠ .panic := by
  unfold RateLimiter.updateBody
  repeat' split
  all_goals intro h
  all_goals cases h

theorem updateBody_ok {r : RateLimiter} {s q : Nat} {r' : RateLimiter}
    (h : RateLimiter.updateBody r s q = .ok r') :
    r' = { window_duration := r.window_duration
           max_outflow := r.max_outflow
           prev_window := r.prev_window
           cur_window := { slot_start := r.cur_window.slot_start
                           qty := r.cur_window.qty + q } } ∧
      r.cur_window.qty + q ≤ r.max_outflow := by
  unfold RateLimiter.updateBody at h
  split at h
  · cases h
  case _ ratio hratio =>
  split at h
  · cases h
  case _ prev_weight hweight =>
  split at h
  · cases h
  case _ weighted_prev hmul =>
  split at h
  · cases h
  case _ cur_outflow hflow =>
  split at h
  · cases h
  case _ total htotal =>
  split at h
  · cases h
  case _ hbudget =>
  split at h
  · cases h
  case _ new_qty hnew =>
  cases h
  have e1 := Decimal.tryAdd_ok hflow
  have e2 := Decimal.tryAdd_ok htotal
  have e3 := Decimal.tryAdd_ok hnew
  subst e3
  exact ⟨rfl, by omega⟩

theorem slide_window_duration (r : RateLimiter) (s : Nat) :
    (r.slide s).window_duration = r.window_duration := by
  unfold RateLimiter.slide
  repeat' split
  all_goals rfl

theorem slide_max_outflow (r : RateLimiter) (s : Nat) :
    (r.slide s).max_outflow = r.max_outflow := by
  unfold RateLimiter.slide
  repeat' split
  all_goals rfl

theorem slide_qty_le (r : RateLimiter) (s : Nat) :
    (r.slide s).cur_window.qty ≤ r.cur_window.qty := by
  unfold RateLimiter.slide
  repeat' split
  all_goals simp [Decimal.zero]

theorem slide_of_lt {r : RateLimiter} {s : Nat}
    (h : s / r.window_duration * r.window_duration <
      r.cur_window.slot_start + r.window_duration) :
    r.slide s = r := by
  unfold RateLimiter.slide
  simp [h]

theorem slide_eq_or (r : RateLimiter) (s : Nat) :
    r.slide s = r ∨
      ((r.slide s).cur_window.qty = 0 ∧
        r.cur_window.slot_start + r.window_duration ≤
          (r.slide s).cur_window.slot_start) := by
  unfold RateLimiter.slide
  split
  · exact Or.inl rfl
  · split
    · right
      constructor
      · rfl
      · simp only
        omega
    · right
      constructor
      · rfl
      · simp only
        omega

theorem le_floor_of_dvd_le {wd a s : Nat} (h : 0 < wd) (hdvd : wd ∣ a)
    (hle : a ≤ s) : a ≤ s / wd * wd := by
  obtain ⟨k, rfl⟩ := hdvd
  have : k ≤ s / wd := (Nat.le_div_iff_mul_le h).2 (by
    calc k * wd = wd * k := Nat.mul_comm _ _
    _ ≤ s := hle)
  calc wd * k = k * wd := Nat.mul_comm _ _
  _ ≤ s / wd * wd := Nat.mul_le_mul_right wd this

theorem lt_floor_add_self {s wd : Nat} (h : 0 < wd) :
    s < s / wd * wd + wd := by
  have h1 := Nat.div_add_mod s wd
  have h2 := Nat.mod_lt s h
  have h3 : wd * (s / wd) = s / wd * wd := Nat.mul_comm _ _
  omega

theorem dvd_squeeze {wd a b : Nat} (ha : wd ∣ a) (hb : wd ∣ b)
    (h1 : a ≤ b) (h2 : b < a + wd) : a = b := by
  have hd : wd ∣ b - a := Nat.dvd_sub' hb ha
  have : b - a < wd := by omega
  have := Nat.eq_zero_of_dvd_of_lt hd this
  omega

theorem slide_cur_start {r : RateLimiter} {s wd : Nat}
    (hwd : r.window_duration = wd) (h1 : 0 < wd)
    (hdvd : wd ∣ r.cur_window.slot_start)
    (hle : r.cur_window.slot_start ≤ s) :
    (r.slide s).cur_window.slot_start = s / wd * wd := by
  unfold RateLimiter.slide
  rw [hwd]
  split
  case _ hlt =>
    have hge := le_floor_of_dvd_le h1 hdvd hle
    have hdvd2 : wd ∣ s / wd * wd := dvd_mul_left wd (s / wd)
    exact dvd_squeeze hdvd hdvd2 hge (by omega)
  case _ => split <;> rfl

theorem update_eq_body {r : RateLimiter} {s q : Nat}
    (h1 : r.cur_window.slot_start ≤ s) (h2 : r.window_duration ≠ 0)
    (h3 : 1 ≤ r.cur_window.slot_start) :
    r.update s q = RateLimiter.updateBody (r.slide s) s q := by
  unfold RateLimiter.update
  rw [if_neg (by omega), if_neg h2, if_neg (by omega)]

theorem update_err_slide {r : RateLimiter} {s q : Nat} {e : LendingErr}
    {r' : RateLimiter} (h : r.update s q = .err e r') : r' = r.slide s := by
  unfold RateLimiter.update at h
  split at h
  · cases h
  split at h
  · cases h
  split at h
  · cases h
  exact updateBody_err_state h

theorem update_ok_elim {r : RateLimiter} {s q : Nat} {r' : RateLimiter}
    (h : r.update s q = .ok r') :
    r' = { window_duration := (r.slide s).window_duration
           max_outflow := (r.slide s).max_outflow
           prev_window := (r.slide s).prev_window
           cur_window := { slot_start := (r.slide s).cur_window.slot_start
                           qty := (r.slide s).cur_window.qty + q } } ∧
      (r.slide s).cur_window.qty + q ≤ r.max_outflow := by
  unfold RateLimiter.update at h
  split at h
  · cases h
  split at h
  · cases h
  split at h
  · cases h
  have := updateBody_ok h
  simp only [slide_max_outflow] at this ⊢
  exact this

theorem update_not_panic {r : RateLimiter} {s q : Nat}
    (h1 : r.cur_window.slot_start ≤ s) (h2 : r.window_duration ≠ 0)
    (h3 : 1 ≤ r.cur_window.slot_start) : r.update s q ≠ .panic := by
  rw [update_eq_body h1 h2 h3]
  exact updateBody_ne_panic _ _ _

theorem sumLt_hi_zero (acc : List (Nat × Nat)) (lo : Nat) :
    sumLt acc lo 0 = 0 := by
  induction acc with
  | nil => rfl
  | cons p rest ih =>
    rw [sumLt_cons, ih]
    have : ¬(lo ≤ p.1 ∧ p.1 < 0) := by omega
    simp [this]

theorem slide_inv {wd mo : Nat} {r : RateLimiter} {acc : List (Nat × Nat)}
    {sL s : Nat} (hInv : RLInv wd mo r acc sL) (hs : sL ≤ s) :
    RLInv wd mo (r.slide s) acc s := by
  have hwd0 := hInv.hwd0
  have hles : r.cur_window.slot_start ≤ s := hInv.hle.trans hs
  have hstart : (r.slide s).cur_window.slot_start = s / wd * wd :=
    slide_cur_start hInv.hwd (by omega) hInv.halign hles
  have hge : r.cur_window.slot_start ≤ (r.slide s).cur_window.slot_start := by
    rw [hstart]
    exact le_floor_of_dvd_le (by omega) hInv.halign hles
  refine ⟨hInv.hwd0, ?_, ?_, ?_, ?_, ?_, ?_, ?_, ?_, ?_⟩
  · rw [slide_window_duration]; exact hInv.hwd
  · rw [slide_max_outflow]; exact hInv.hmo
  · rw [hstart]; exact dvd_mul_left wd (s / wd)
  · exact le_trans hInv.hpos hge
  · rw [hstart]; exact Nat.div_mul_le_self s wd
  · exact le_trans (slide_qty_le r s) hInv.hqty
  · rcases slide_eq_or r s with heq | ⟨hq0, hadv⟩
    · rw [heq]; exact hInv.hsum
    · rw [hq0]
      refine sumLt_eq_zero _ _ _ fun p hp => ?_
      have h1 := hInv.hup p hp
      rw [hInv.hwd] at hadv
      omega
  · exact hInv.hwin
  · intro p hp
    have := hInv.hup p hp
    omega

theorem update_ok_inv {wd mo : Nat} {r : RateLimiter} {acc : List (Nat × Nat)}
    {sL s q : Nat} {r' : RateLimiter} (hInv : RLInv wd mo r acc sL)
    (hs : sL ≤ s) (h : r.update s q = .ok r') :
    RLInv wd mo r' (acc ++ [(s, q)]) s := by
  obtain ⟨hr', hbound⟩ := update_ok_elim h
  have hS := slide_inv hInv hs
  have hwd0 := hInv.hwd0
  have hstart : (r.slide s).cur_window.slot_start = s / wd * wd :=
    slide_cur_start hInv.hwd (by omega) hInv.halign (hInv.hle.trans hs)
  have hin : (r.slide s).cur_window.slot_start ≤ s ∧
      s < (r.slide s).cur_window.slot_start + wd := by
    rw [hstart]
    exact ⟨Nat.div_mul_le_self s wd, lt_floor_add_self (by omega)⟩
  have hmo' : r.max_outflow = mo := hInv.hmo
  subst hr'
  refine ⟨hInv.hwd0, hS.hwd, hS.hmo, hS.halign, hS.hpos, hS.hle, ?_, ?_, ?_, ?_⟩
  · simp only
    omega
  · simp only
    rw [sumLt_append, hS.hsum, sumLt_single, if_pos ⟨hin.1, by omega⟩]
  · intro k
    rw [sumLt_append, sumLt_single]
    by_cases hk : k * wd ≤ s ∧ s < (k + 1) * wd
    · have hdiv : s / wd = k := Nat.div_eq_of_lt_le hk.1 hk.2
      have hk1 : k * wd = (r.slide s).cur_window.slot_start := by
        rw [hstart, hdiv]
      have hk2 : (k + 1) * wd = (r.slide s).cur_window.slot_start + wd := by
        rw [hstart, hdiv, Nat.succ_mul]
      rw [hk1, hk2, hS.hsum, if_pos ⟨hin.1, hin.2⟩]
      omega
    · rw [if_neg (by omega)]
      have := hS.hwin k
      omega
  · intro p hp
    simp only
    rcases List.mem_append.1 hp with hmem | hmem
    · exact hS.hup p hmem
    · have : p = (s, q) := List.mem_singleton.1 hmem
      subst this
      exact hin.2

theorem update_err_inv {wd mo : Nat} {r : RateLimiter} {acc : List (Nat × Nat)}
    {sL s q : Nat} {e : LendingErr} {r' : RateLimiter}
    (hInv : RLInv wd mo r acc sL) (hs : sL ≤ s)
    (h : r.update s q = .err e r') : RLInv wd mo r' acc s := by
  have := update_err_slide h
  subst this
  exact slide_inv hInv hs

theorem runUpdates_inv {wd mo : Nat} :
    ∀ (calls : List (Nat × Nat)) (r : RateLimiter) (acc : List (Nat × Nat))
      (sL : Nat), RLInv wd mo r acc sL → slotsOK sL calls →
      RLInv wd mo (runUpdates r calls).1 (acc ++ (runUpdates r calls).2)
        (lastSlot calls sL)
  | [], r, acc, sL, hInv, _ => by
    simp only [runUpdates, lastSlot, List.append_nil]
    exact hInv
  | (s, q) :: rest, r, acc, sL, hInv, hOK => by
    obtain ⟨hs, hrest⟩ := hOK
    have hwd0 := hInv.hwd0
    have hnp : r.update s q ≠ .panic := by
      refine update_not_panic (hInv.hle.trans hs) ?_ hInv.hpos
      rw [hInv.hwd]
      omega
    rcases hcase : r.update s q with r' | ⟨e, r'⟩ | _
    · have hInv' := update_ok_inv hInv hs hcase
      have ih := runUpdates_inv rest r' (acc ++ [(s, q)]) s hInv' hrest
      simp only [runUpdates, hcase]
      simpa [List.append_assoc] using ih
    · have hInv' := update_err_inv hInv hs hcase
      have ih := runUpdates_inv rest r' acc s hInv' hrest
      simpa only [runUpdates, hcase] using ih
    · exact absurd hcase hnp

theorem slotsOK_of_chain :
    ∀ (calls : List (Nat × Nat)) (d : Nat),
      List.Chain' (fun a b : Nat × Nat => a.1 ≤ b.1) calls →
      (∀ y ∈ calls.head?, d ≤ y.1) → slotsOK d calls
  | [], _, _, _ => trivial
  | p :: rest, d, hchain, hhead => by
    obtain ⟨hh, hc⟩ := List.chain'_cons'.1 hchain
    exact ⟨hhead p rfl, slotsOK_of_chain rest p.1 hc hh⟩

theorem slotsOK_take :
    ∀ (m : Nat) (calls : List (Nat × Nat)) (d : Nat),
      slotsOK d calls → slotsOK d (calls.take m)
  | 0, _, _, _ => trivial
  | _ + 1, [], _, _ => trivial
  | m + 1, p :: rest, _, h => ⟨h.1, slotsOK_take m rest p.1 h.2⟩

theorem lastSlot_take :
    ∀ (n : Nat) (calls : List (Nat × Nat)) (s q d : Nat),
      calls.get? n = some (s, q) → lastSlot (calls.take (n + 1)) d = s
  | 0, p :: rest, s, q, _, h => by
    cases h
    rfl
  | n + 1, p :: rest, s, q, d, h => by
    have : rest.get? n = some (s, q) := h
    simpa [List.take, lastSlot] using lastSlot_take n rest s q p.1 this
  | _, [], _, _, _, h => by cases h

theorem new_elim {wd mo cs : Nat} {r0 : RateLimiter}
    (h : RateLimiter.new wd mo cs = some r0) :
    wd ≠ 0 ∧ 1 ≤ cs / wd * wd ∧
      r0 = { window_duration := wd
             max_outflow := mo
             prev_window := { slot_start := cs / wd * wd - 1
                              qty := Decimal.zero }
             cur_window := { slot_start := cs / wd * wd
                             qty := Decimal.zero } } := by
  unfold RateLimiter.new at h
  split at h
  · cases h
  split at h
  · cases h
  cases h
  refine ⟨by assumption, by omega, rfl⟩

theorem bound_of_inv {wd mo : Nat} {r : RateLimiter}
    {acc : List (Nat × Nat)} {s : Nat} (hInv : RLInv wd mo r acc s) :
    sumLt acc (s - wd) (s + 1) ≤ 2 * mo := by
  have hwd0 := hInv.hwd0
  have hK : s / wd * wd ≤ s := Nat.div_mul_le_self s wd
  have hK2 : s < s / wd * wd + wd := lt_floor_add_self (by omega)
  have h1 := sumLt_split acc (s - wd) (s / wd * wd) (s + 1)
  have h3 : sumLt acc (s / wd * wd) (s + 1) ≤
      sumLt acc (s / wd * wd) ((s / wd + 1) * wd) := by
    refine sumLt_le_of_imp _ _ _ _ _ fun p hp h1 h2 => ⟨h1, ?_⟩
    rw [Nat.succ_mul]
    omega
  have h4 := hInv.hwin (s / wd)
  rcases Nat.eq_zero_or_pos (s / wd) with hz | hpos
  · have h2 : sumLt acc (s - wd) (s / wd * wd) = 0 := by
      rw [hz, Nat.zero_mul]
      exact sumLt_hi_zero acc _
    have h5 := hInv.hwin (s / wd)
    omega
  · have he : (s / wd - 1) * wd + wd = s / wd * wd := by
      have : s / wd - 1 + 1 = s / wd := Nat.succ_pred_eq_of_pos hpos
      calc (s / wd - 1) * wd + wd = (s / wd - 1 + 1) * wd := by
            rw [Nat.succ_mul]
      _ = s / wd * wd := by rw [this]
    have h2 : sumLt acc (s - wd) (s / wd * wd) ≤
        sumLt acc ((s / wd - 1) * wd) (s / wd * wd) := by
      refine sumLt_le_of_imp _ _ _ _ _ fun p hp hlo hhi => ⟨?_, hhi⟩
      omega
    have h5 := hInv.hwin (s / wd - 1)
    rw [Nat.succ_mul, he] at h5
    omega

/-- C1 (amended): for every rate limiter built by `RateLimiter::new` with
`window_duration ≥ 1`, and every sequence of `RateLimiter::update` calls
at non-decreasing slots no earlier than the creation slot, the total
quantity accepted by successful updates whose slots lie in the closed
interval `[cur_slot - window_duration, cur_slot]` is at most
`2 * max_outflow`, at every point of the sequence.  (The strict bound
claimed in the source's doc comment fails at window boundaries, see the
counterexample.) -/
theorem rate_limiter_sliding_window_bound
    (wd mo cs : Nat) (r0 : RateLimiter) (calls : List (Nat × Nat))
    (n s q : Nat) (hnew : RateLimiter.new wd mo cs = some r0)
    (hchain : List.Chain' (fun a b : Nat × Nat => a.1 ≤ b.1) calls)
    (hall : ∀ p ∈ calls, cs ≤ p.1)
    (hn : calls.get? n = some (s, q)) :
    sumLt (runUpdates r0 (calls.take (n + 1))).2 (s - wd) (s + 1) ≤
      2 * mo := by
  obtain ⟨hwd, hpos, hr0⟩ := new_elim hnew
  have hInit : RLInv wd mo r0 [] cs := by
    subst hr0
    exact ⟨by omega, rfl, rfl, dvd_mul_left wd (cs / wd), hpos,
      Nat.div_mul_le_self cs wd, Nat.zero_le mo, rfl,
      fun k => Nat.zero_le mo, fun p hp => absurd hp (List.not_mem_nil p)⟩
  have hOK : slotsOK cs calls :=
    slotsOK_of_chain calls cs hchain
      (fun y hy => hall y (List.mem_of_mem_head? hy))
  have hrun := runUpdates_inv (calls.take (n + 1)) r0 [] cs hInit
    (slotsOK_take (n + 1) calls cs hOK)
  rw [List.nil_append, lastSlot_take n calls s q cs hn] at hrun
  exact bound_of_inv hrun

/-- C1 counterexample: window_duration 10, max_outflow 100 (wad-scaled),
created at slot 10; the updates at slots 19 and 29 of 100 each are both
accepted and both lie in `[29 - 10, 29]`, so the interval's accepted
total is exactly `2 * max_outflow`, refuting the strict `<` bound. -/
theorem rate_limiter_sliding_window_strict_cex :
    RateLimiter.new 10 (100 * WAD) 10 =
      some ⟨10, 100 * WAD, ⟨9, 0⟩, ⟨10, 0⟩⟩ ∧
    (runUpdates (⟨10, 100 * WAD, ⟨9, 0⟩, ⟨10, 0⟩⟩ : RateLimiter)
        [(19, 100 * WAD), (29, 100 * WAD)]).2 =
      [(19, 100 * WAD), (29, 100 * WAD)] ∧
    ¬ sumLt (runUpdates (⟨10, 100 * WAD, ⟨9, 0⟩, ⟨10, 0⟩⟩ : RateLimiter)
        [(19, 100 * WAD), (29, 100 * WAD)]).2 (29 - 10) (29 + 1) <
      2 * (100 * WAD) := by
  refine ⟨by decide, by decide, by decide⟩

/-- C1 witness: the amended bound applied to a concrete one-call trace. -/
theorem rate_limiter_sliding_window_bound_witness :
    RateLimiter.new 1 (7 * WAD) 1 = some ⟨1, 7 * WAD, ⟨0, 0⟩, ⟨1, 0⟩⟩ ∧
    sumLt (runUpdates (⟨1, 7 * WAD, ⟨0, 0⟩, ⟨1, 0⟩⟩ : RateLimiter)
        ([(1, 5 * WAD)].take (0 + 1))).2 (1 - 1) (1 + 1) ≤ 2 * (7 * WAD) :=
  ⟨by decide,
    rate_limiter_sliding_window_bound 1 (7 * WAD) 1 _ [(1, 5 * WAD)] 0 1
      (5 * WAD) (by decide) (List.chain'_singleton _) (by decide)
      (by decide)⟩

/-- C2 counterexample: a rejected update does not leave the state
unchanged — the window-advance bookkeeping has already rotated
`prev_window`/`cur_window` when the `OutflowRateLimitExceeded` error is
returned. -/
theorem rate_limit_rejection_cex :
    RateLimiter.update (⟨10, 100 * WAD, ⟨9, 0⟩, ⟨10, 100 * WAD⟩⟩ :
        RateLimiter) 20 (101 * WAD) =
      .err .OutflowRateLimitExceeded
        ⟨10, 100 * WAD, ⟨10, 100 * WAD⟩, ⟨20, 0⟩⟩ ∧
    (⟨10, 100 * WAD, ⟨10, 100 * WAD⟩, ⟨20, 0⟩⟩ : RateLimiter) ≠
      ⟨10, 100 * WAD, ⟨9, 0⟩, ⟨10, 100 * WAD⟩⟩ := by
  refine ⟨by decide, by decide⟩

/-- C2 (amended): when `RateLimiter::update` returns an error, no
quantity is consumed and the configuration is untouched: the post-state
is exactly the window-advance (`slide`) of the pre-state at `cur_slot` —
`window_duration` and `max_outflow` are unchanged and `cur_window.qty`
does not increase — and if `cur_slot`'s window start still lies inside
the current window the state is exactly the pre-state. -/
theorem rate_limit_rejection_no_consumption
    (r : RateLimiter) (s q : Nat) (e : LendingErr) (r' : RateLimiter)
    (h : r.update s q = .err e r') :
    r' = r.slide s ∧
    r'.window_duration = r.window_duration ∧
    r'.max_outflow = r.max_outflow ∧
    r'.cur_window.qty ≤ r.cur_window.qty ∧
    (s / r.window_duration * r.window_duration <
        r.cur_window.slot_start + r.window_duration → r' = r) := by
  have hs := update_err_slide h
  subst hs
  exact ⟨rfl, slide_window_duration r s, slide_max_outflow r s,
    slide_qty_le r s, fun hlt => slide_of_lt hlt⟩

/-- C2 witness: the amended statement at the counterexample's input. -/
theorem rate_limit_rejection_no_consumption_witness :
    RateLimiter.update (⟨10, 100 * WAD, ⟨9, 0⟩, ⟨10, 100 * WAD⟩⟩ :
        RateLimiter) 20 (101 * WAD) =
      .err .OutflowRateLimitExceeded
        ⟨10, 100 * WAD, ⟨10, 100 * WAD⟩, ⟨20, 0⟩⟩ ∧
    (⟨10, 100 * WAD, ⟨10, 100 * WAD⟩, ⟨20, 0⟩⟩ : RateLimiter).cur_window.qty ≤
      (⟨10, 100 * WAD, ⟨9, 0⟩, ⟨10, 100 * WAD⟩⟩ :
        RateLimiter).cur_window.qty :=
  ⟨by decide,
    (rate_limit_rejection_no_consumption _ 20 (101 * WAD)
      .OutflowRateLimitExceeded _ (by decide)).2.2.2.1⟩

/-- C8: `RateLimiter::new(window_duration, max_outflow, cur_slot)` is
well-defined (no division by zero, no u64 subtraction underflow) if and
only if `window_duration ≥ 1` and `cur_slot ≥ window_duration`. -/
theorem rate_limiter_new_defined_iff (wd mo cs : Nat) :
    (RateLimiter.new wd mo cs).isSome ↔ 1 ≤ wd ∧ wd ≤ cs := by
  unfold RateLimiter.new
  rcases Nat.eq_zero_or_pos wd with h0 | hpos
  · subst h0
    simp
  · rw [if_neg (by omega)]
    by_cases hlt : cs < wd
    · have hz : cs / wd = 0 := Nat.div_eq_of_lt hlt
      rw [if_pos (by rw [hz, Nat.zero_mul])]
      simp
      omega
    · have h1 : 1 ≤ cs / wd := (Nat.one_le_div_iff hpos).2 (by omega)
      have h2 : cs / wd * wd ≠ 0 := by
        have := Nat.mul_pos h1 hpos
        omega
      rw [if_neg h2]
      simp
      omega

/-- C10 (amended): the 72-byte round trip returns the original rate
limiter for every value whose decimal fields fit the 16-byte slots
(scaled value below 2^128; the u64 fields are in range by their Rust
type).  A decimal at or above 2^128 cannot be packed at all — see the
counterexample. -/
theorem rate_limiter_pack_roundtrip (r : RateLimiter)
    (h1 : r.window_duration < 2 ^ 64)
    (h2 : r.prev_window.slot_start < 2 ^ 64)
    (h3 : r.cur_window.slot_start < 2 ^ 64)
    (h4 : r.max_outflow < 2 ^ 128)
    (h5 : r.prev_window.qty < 2 ^ 128)
    (h6 : r.cur_window.qty < 2 ^ 128) :
    r.packIntoSlice = some r.packBytes ∧
      RateLimiter.unpackFromSlice r.packBytes = some r := by
  have e16 : (256 : Nat) ^ 16 = 2 ^ 128 := by norm_num
  have e8 : (256 : Nat) ^ 8 = 2 ^ 64 := by norm_num
  have ha := natToLe_length 16 r.max_outflow
  have hb := natToLe_length 8 r.window_duration
  have hc := natToLe_length 8 r.prev_window.slot_start
  have hd := natToLe_length 16 r.prev_window.qty
  have he := natToLe_length 8 r.cur_window.slot_start
  have hf := natToLe_length 16 r.cur_window.qty
  constructor
  · unfold RateLimiter.packIntoSlice
    rw [if_pos ⟨h4, h5, h6⟩]
  · unfold RateLimiter.unpackFromSlice RateLimiter.packBytes
    have hlen : (natToLe 16 r.max_outflow ++ (natToLe 8 r.window_duration ++
        (natToLe 8 r.prev_window.slot_start ++ (natToLe 16 r.prev_window.qty ++
          (natToLe 8 r.cur_window.slot_start ++
            natToLe 16 r.cur_window.qty))))).length = 72 := by
      simp [List.length_append, ha, hb, hc, hd, he, hf]
    rw [hlen, if_neg (lt_irrefl 72)]
    rw [List.take_left' ha, List.drop_left' ha, List.take_left' hb,
      List.drop_left' hb, List.take_left' hc, List.drop_left' hc,
      List.take_left' hd, List.drop_left' hd, List.take_left' he,
      List.drop_left' he]
    have hlast : List.take 16 (natToLe 16 r.cur_window.qty) =
        natToLe 16 r.cur_window.qty := List.take_of_length_le (le_of_eq hf)
    rw [hlast]
    unfold unpackDecimal
    rw [leToNat_natToLe_of_lt (show r.window_duration < 256 ^ 8 by
          rw [e8]; exact h1),
      leToNat_natToLe_of_lt (show r.max_outflow < 256 ^ 16 by
          rw [e16]; exact h4),
      leToNat_natToLe_of_lt (show r.prev_window.slot_start < 256 ^ 8 by
          rw [e8]; exact h2),
      leToNat_natToLe_of_lt (show r.prev_window.qty < 256 ^ 16 by
          rw [e16]; exact h5),
      leToNat_natToLe_of_lt (show r.cur_window.slot_start < 256 ^ 8 by
          rw [e8]; exact h3),
      leToNat_natToLe_of_lt (show r.cur_window.qty < 256 ^ 16 by
          rw [e16]; exact h6)]

/-- C10 counterexample: a rate limiter whose `max_outflow` has scaled
value 2^128 (well inside the 192-bit `Decimal` range) cannot be packed —
`pack_decimal` panics — so the unrestricted round-trip claim fails. -/
theorem rate_limiter_pack_unrepresentable_cex :
    RateLimiter.packIntoSlice ⟨1, 2 ^ 128, ⟨0, 0⟩, ⟨0, 0⟩⟩ = none := by
  decide

/-- C10 witness: the round trip at a small concrete rate limiter. -/
theorem rate_limiter_pack_roundtrip_witness :
    RateLimiter.packIntoSlice ⟨2, 7, ⟨3, 5⟩, ⟨4, 9⟩⟩ =
        some (RateLimiter.packBytes ⟨2, 7, ⟨3, 5⟩, ⟨4, 9⟩⟩) ∧
      RateLimiter.unpackFromSlice (RateLimiter.packBytes ⟨2, 7, ⟨3, 5⟩, ⟨4, 9⟩⟩) =
        some ⟨2, 7, ⟨3, 5⟩, ⟨4, 9⟩⟩ :=
  rate_limiter_pack_roundtrip _ (by decide) (by decide) (by decide)
    (by decide) (by decide) (by decide)

theorem AccountTag.ofByte_toByte (t : AccountTag) :
    AccountTag.ofByte t.toByte = some t := by
  cases t <;> rfl

theorem v1_unpack_pack {v : LendingMarketV1} (hWF : v.WF)
    (hle : v.version ≤ PROGRAM_VERSION)
    (hne : v.version ≠ UNINITIALIZED_VERSION) :
    LendingMarketV1.unpack v.pack = .ok v := by
  obtain ⟨h1, h2, ho, _, hq, _, ht, _, hor, _, hs, _⟩ := hWF
  show LendingMarketV1.unpack (v.version :: v.bump_seed ::
    (v.owner ++ (v.quote_currency ++ (v.token_program_id ++
      (v.oracle_program_id ++ (v.switchboard_oracle_program_id ++
        List.replicate 128 0)))))) = .ok v
  simp only [LendingMarketV1.unpack]
  have hrl : (v.owner ++ (v.quote_currency ++ (v.token_program_id ++
      (v.oracle_program_id ++ (v.switchboard_oracle_program_id ++
        List.replicate 128 0))))).length = 288 := by
    simp [ho, hq, ht, hor, hs]
  rw [if_pos hrl, if_pos hle, if_pos hne, List.take_left' ho,
    List.drop_left' ho, List.take_left' hq, List.drop_left' hq,
    List.take_left' ht, List.drop_left' ht, List.take_left' hor,
    List.drop_left' hor, List.take_left' hs]

theorem borsh_deser_ser {m : LendingMarket} (hWF : m.WF) :
    LendingMarket.borshDeser m.borshSer = .ok m := by
  obtain ⟨h1, h2, ho, _, hq, _, ht, _, hor, _, hs, _⟩ := hWF
  show LendingMarket.borshDeser (m.version :: m.tag.toByte :: m.bump_seed ::
    (m.owner ++ (m.quote_currency ++ (m.token_program_id ++
      (m.oracle_program_id ++ m.switchboard_oracle_program_id))))) = .ok m
  simp only [LendingMarket.borshDeser]
  have hrl : (m.owner ++ (m.quote_currency ++ (m.token_program_id ++
      (m.oracle_program_id ++ m.switchboard_oracle_program_id)))).length =
      160 := by
    simp [ho, hq, ht, hor, hs]
  rw [if_pos hrl, AccountTag.ofByte_toByte, List.take_left' ho,
    List.drop_left' ho, List.take_left' hq, List.drop_left' hq,
    List.take_left' ht, List.drop_left' ht, List.take_left' hor,
    List.drop_left' hor]
  have hlast : List.take 32 m.switchboard_oracle_program_id =
      m.switchboard_oracle_program_id := List.take_of_length_le (le_of_eq hs)
  rw [hlast]

/-- C4: packing a version-1 lending market into its fixed 290-byte layout
and then running the program's `smart_unpack` succeeds and yields the
current-version struct: version 2, tag `LendingMarket`, and all shared
fields copied from the version-1 value. -/
theorem smart_unpack_migrates_v1 (v : LendingMarketV1) (hWF : v.WF)
    (hv : v.version = 1) :
    LendingMarket.smartUnpack v.pack =
      .ok { version := 2
            tag := .LendingMarket
            bump_seed := v.bump_seed
            owner := v.owner
            quote_currency := v.quote_currency
            token_program_id := v.token_program_id
            oracle_program_id := v.oracle_program_id
            switchboard_oracle_program_id :=
              v.switchboard_oracle_program_id } := by
  have hup := v1_unpack_pack hWF (by rw [hv]; decide) (by rw [hv]; decide)
  simp only [LendingMarketV1.pack, List.singleton_append] at hup ⊢
  simp only [LendingMarket.smartUnpack]
  rw [if_neg (show ¬(v.version = UNINITIALIZED_VERSION) by rw [hv]; decide),
    if_pos hv, hup]
  rfl

/-- C4 witness: the migration at a concrete version-1 value. -/
theorem smart_unpack_migrates_v1_witness :
    LendingMarket.smartUnpack
        (LendingMarketV1.pack ⟨1, 5, List.replicate 32 2, List.replicate 32 3,
          List.replicate 32 4, List.replicate 32 6, List.replicate 32 7⟩) =
      .ok ⟨2, .LendingMarket, 5, List.replicate 32 2, List.replicate 32 3,
        List.replicate 32 4, List.replicate 32 6, List.replicate 32 7⟩ :=
  smart_unpack_migrates_v1 _ (by decide) rfl

/-- C5: packing a current-version lending market with `smart_pack` at
version 2 (borsh into a buffer resized to the serialized length) and
then running `smart_unpack` on the bytes returns exactly the original
value. -/
theorem smart_pack_unpack_v2 (m : LendingMarket) (hWF : m.WF)
    (hv : m.version = 2) (ht : m.tag = .LendingMarket) :
    LendingMarket.smartUnpack (LendingMarket.smartPackV2 m) = .ok m := by
  have hds := borsh_deser_ser hWF
  simp only [LendingMarket.smartPackV2, LendingMarket.borshSer,
    List.singleton_append] at hds ⊢
  simp only [LendingMarket.smartUnpack]
  rw [if_neg (show ¬(m.version = UNINITIALIZED_VERSION) by rw [hv]; decide),
    if_neg (show ¬(m.version = 1) by rw [hv]; decide), if_pos hv, hds]
  simp only [LendingMarket.validateTag, ht]

/-- C5 witness: the version-2 round trip at a concrete value. -/
theorem smart_pack_unpack_v2_witness :
    LendingMarket.smartUnpack (LendingMarket.smartPackV2
        ⟨2, .LendingMarket, 9, List.replicate 32 2, List.replicate 32 3,
          List.replicate 32 4, List.replicate 32 6, List.replicate 32 7⟩) =
      .ok ⟨2, .LendingMarket, 9, List.replicate 32 2, List.replicate 32 3,
        List.replicate 32 4, List.replicate 32 6, List.replicate 32 7⟩ :=
  smart_pack_unpack_v2 _ (by decide) rfl rfl

/-- C7: the program's `smart_unpack` rejects with `FailedToDeserialize`
every buffer whose leading version byte is neither 1 nor 2 (the empty
buffer and version byte 0 included), and any version-2 buffer whose
borsh decoding carries a tag other than `AccountTag::LendingMarket`. -/
theorem smart_unpack_rejects_unknown :
    (LendingMarket.smartUnpack [] = .error .FailedToDeserialize) ∧
    (∀ (b : Nat) (tl : List Nat), b ≠ 1 → b ≠ 2 →
      LendingMarket.smartUnpack (b :: tl) = .error .FailedToDeserialize) ∧
    (∀ (src : List Nat) (m : LendingMarket), src.head? = some 2 →
      LendingMarket.borshDeser src = .ok m → m.tag ≠ .LendingMarket →
      LendingMarket.smartUnpack src = .error .FailedToDeserialize) := by
  refine ⟨rfl, ?_, ?_⟩
  · intro b tl hb1 hb2
    simp only [LendingMarket.smartUnpack]
    by_cases hb0 : b = UNINITIALIZED_VERSION
    · rw [if_pos hb0]
    · rw [if_neg hb0, if_neg hb1, if_neg hb2]
  · intro src m hh hdec htag
    cases src with
    | nil => cases hh
    | cons b tl =>
      have hb : b = 2 := by
        have : some b = some 2 := hh
        exact Option.some.inj this
      subst hb
      have hval : m.validateTag = .error .FailedToDeserialize := by
        unfold LendingMarket.validateTag
        cases hcase : m.tag with
        | LendingMarket => exact absurd hcase htag
        | UnInitialized => rfl
        | Reserve => rfl
        | Obligation => rfl
      simp [LendingMarket.smartUnpack, UNINITIALIZED_VERSION, hdec, hval]

/-- C7 witness: rejection of an unknown version byte and of a version-2
buffer whose tag is `Reserve` rather than `LendingMarket`. -/
theorem smart_unpack_rejects_unknown_witness :
    LendingMarket.smartUnpack [3, 7] = .error .FailedToDeserialize ∧
    LendingMarket.smartUnpack (LendingMarket.borshSer
        ⟨2, .Reserve, 9, List.replicate 32 2, List.replicate 32 3,
          List.replicate 32 4, List.replicate 32 6, List.replicate 32 7⟩) =
      .error .FailedToDeserialize :=
  ⟨smart_unpack_rejects_unknown.2.1 3 [7] (by decide) (by decide),
    smart_unpack_rejects_unknown.2.2 _
      ⟨2, .Reserve, 9, List.replicate 32 2, List.replicate 32 3,
        List.replicate 32 4, List.replicate 32 6, List.replicate 32 7⟩
      rfl (borsh_deser_ser (by decide)) (by decide)⟩

/-- C9: on buffers whose first byte is 1, the sdk's `smart_unpack` and
the program's `smart_unpack` agree: the sdk succeeds with `v1` exactly
when the program succeeds with the migrated `LendingMarket::from(v1)`,
and when one fails with `FailedToDeserialize` so does the other. -/
theorem sdk_program_smart_unpack_agree (b : Nat) (tl : List Nat)
    (hb : b = 1) :
    (∀ v1 : LendingMarketV1, sdkSmartUnpack (b :: tl) = .ok v1 →
        LendingMarket.smartUnpack (b :: tl) = .ok (LendingMarket.fromV1 v1)) ∧
    (∀ m : LendingMarket, LendingMarket.smartUnpack (b :: tl) = .ok m →
        ∃ v1, sdkSmartUnpack (b :: tl) = .ok v1 ∧
          m = LendingMarket.fromV1 v1) ∧
    (sdkSmartUnpack (b :: tl) = .error .FailedToDeserialize ↔
      LendingMarket.smartUnpack (b :: tl) = .error .FailedToDeserialize) := by
  subst hb
  cases hu : LendingMarketV1.unpack (1 :: tl) with
  | error e =>
    refine ⟨?_, ?_, ?_⟩
    · intro v1 h
      simp [sdkSmartUnpack, UNINITIALIZED_VERSION, hu] at h
    · intro m h
      simp [LendingMarket.smartUnpack, UNINITIALIZED_VERSION, hu] at h
    · constructor
      · intro _
        simp [LendingMarket.smartUnpack, UNINITIALIZED_VERSION, hu]
      · intro _
        simp [sdkSmartUnpack, UNINITIALIZED_VERSION, hu]
  | ok v =>
    refine ⟨?_, ?_, ?_⟩
    · intro v1 h
      simp [sdkSmartUnpack, UNINITIALIZED_VERSION, hu] at h
      subst h
      simp [LendingMarket.smartUnpack, UNINITIALIZED_VERSION, hu]
    · intro m h
      simp [LendingMarket.smartUnpack, UNINITIALIZED_VERSION, hu] at h
      exact ⟨v, by simp [sdkSmartUnpack, UNINITIALIZED_VERSION, hu], h.symm⟩
    · constructor
      · intro h
        simp [sdkSmartUnpack, UNINITIALIZED_VERSION, hu] at h
      · intro h
        simp [LendingMarket.smartUnpack, UNINITIALIZED_VERSION, hu] at h

/-- C9 witness: the agreement at a concrete (malformed) one-byte
version-1 buffer. -/
theorem sdk_program_smart_unpack_agree_witness :
    (∀ v1 : LendingMarketV1, sdkSmartUnpack [1] = .ok v1 →
        LendingMarket.smartUnpack [1] = .ok (LendingMarket.fromV1 v1)) ∧
    (∀ m : LendingMarket, LendingMarket.smartUnpack [1] = .ok m →
        ∃ v1, sdkSmartUnpack [1] = .ok v1 ∧ m = LendingMarket.fromV1 v1) ∧
    (sdkSmartUnpack [1] = .error .FailedToDeserialize ↔
      LendingMarket.smartUnpack [1] = .error .FailedToDeserialize) :=
  sdk_program_smart_unpack_agree 1 [] rfl

/-- C6 counterexample: converting a current-version market whose
`oracle_program_id` differs from its `token_program_id` to the version-0
schema does not preserve `oracle_program_id` — the source assigns
`token_program_id` to it. -/
theorem lending_market_v0_conversion_cex :
    (LendingMarketV0.fromCurrent
        ⟨2, .LendingMarket, 1, List.replicate 32 1, List.replicate 32 2,
          List.replicate 32 3, List.replicate 32 4,
          List.replicate 32 5⟩).oracle_program_id ≠
      (⟨2, .LendingMarket, 1, List.replicate 32 1, List.replicate 32 2,
        List.replicate 32 3, List.replicate 32 4,
        List.replicate 32 5⟩ : LendingMarket).oracle_program_id := by
  decide

/-- C6 (amended): the version-1 conversion copies `bump_seed`, `owner`,
`quote_currency`, `token_program_id`, `oracle_program_id` and
`switchboard_oracle_program_id` unchanged (setting `version` to 1); the
version-0 conversion copies `version`, `bump_seed`, `owner`,
`quote_currency`, `token_program_id` and `switchboard_oracle_program_id`
unchanged but sets `oracle_program_id` to the market's
`token_program_id` instead of its `oracle_program_id`. -/
theorem lending_market_downgrade_fields (m : LendingMarket) :
    (LendingMarketV1.fromCurrent m).version = 1 ∧
    (LendingMarketV1.fromCurrent m).bump_seed = m.bump_seed ∧
    (LendingMarketV1.fromCurrent m).owner = m.owner ∧
    (LendingMarketV1.fromCurrent m).quote_currency = m.quote_currency ∧
    (LendingMarketV1.fromCurrent m).token_program_id = m.token_program_id ∧
    (LendingMarketV1.fromCurrent m).oracle_program_id = m.oracle_program_id ∧
    (LendingMarketV1.fromCurrent m).switchboard_oracle_program_id =
      m.switchboard_oracle_program_id ∧
    (LendingMarketV0.fromCurrent m).version = m.version ∧
    (LendingMarketV0.fromCurrent m).bump_seed = m.bump_seed ∧
    (LendingMarketV0.fromCurrent m).owner = m.owner ∧
    (LendingMarketV0.fromCurrent m).quote_currency = m.quote_currency ∧
    (LendingMarketV0.fromCurrent m).token_program_id = m.token_program_id ∧
    (LendingMarketV0.fromCurrent m).oracle_program_id = m.token_program_id ∧
    (LendingMarketV0.fromCurrent m).switchboard_oracle_program_id =
      m.switchboard_oracle_program_id :=
  ⟨rfl, rfl, rfl, rfl, rfl, rfl, rfl, rfl, rfl, rfl, rfl, rfl, rfl, rfl⟩

/-- C3 counterexample: a loaded price of exactly zero with zero
confidence passes every filter and `get_pyth_price` returns the price 0,
so a non-positive (zero) price is not always rejected. -/
theorem get_pyth_price_zero_price_cex :
    get_pyth_price false (.ok (some ⟨0, 0, 0⟩)) = .ok 0 := by
  decide

/-- C3 (amended): for every successfully loaded oracle account,
`get_pyth_price` returns `InvalidOracleConfig` — never a price —
whenever the price is stale (no sufficiently recent price), or the
confidence interval is too wide (saturating `conf * 10` exceeds the
price), or the reported price is strictly negative; a zero price is
rejected only through the confidence filter (when `conf > 0`), and with
zero confidence it yields `Ok(0)`. -/
theorem get_pyth_price_invalid_conditions
    (loaded : Except Unit (Option PythPrice)) (p : PythPrice) :
    (loaded = .ok none →
      get_pyth_price false loaded = .error (.lending .InvalidOracleConfig)) ∧
    (loaded = .ok (some p) → p.price < 0 →
      get_pyth_price false loaded = .error (.lending .InvalidOracleConfig)) ∧
    (loaded = .ok (some p) →
      p.price.toNat < min (p.conf * 10) (2 ^ 64 - 1) →
      get_pyth_price false loaded =
        .error (.lending .InvalidOracleConfig)) := by
  refine ⟨?_, ?_, ?_⟩
  · intro h
    subst h
    rfl
  · intro h hneg
    subst h
    simp [get_pyth_price, hneg]
  · intro h hconf
    subst h
    by_cases hneg : p.price < 0
    · simp [get_pyth_price, hneg]
    · unfold get_pyth_price
      dsimp only
      rw [if_neg hneg, if_pos hconf]
      simp

/-- C3 witness: the stale, negative-price and wide-confidence rejections
at concrete inputs. -/
theorem get_pyth_price_invalid_conditions_witness :
    get_pyth_price false (.ok none) =
        .error (.lending .InvalidOracleConfig) ∧
    get_pyth_price false (.ok (some ⟨-1, 0, 0⟩)) =
        .error (.lending .InvalidOracleConfig) ∧
    get_pyth_price false (.ok (some ⟨10, 2, 0⟩)) =
        .error (.lending .InvalidOracleConfig) :=
  ⟨(get_pyth_price_invalid_conditions (.ok none) ⟨0, 0, 0⟩).1 rfl,
    (get_pyth_price_invalid_conditions _ ⟨-1, 0, 0⟩).2.1 rfl (by decide),
    (get_pyth_price_invalid_conditions _ ⟨10, 2, 0⟩).2.2 rfl (by decide)⟩
